import Mathlib

/-!
Shallow embedding of the configurable sectioned page cache of the bptree
repository (include/bptree/page.h, include/bptree/configurable_cache.h, the
ConfigurableCache/CacheSection implementation file, and
include/bptree/simplified_configurable_cache.h).

Modelling conventions:
* `PageID` is `uint32_t` in the source; identifiers are modelled as `Nat`,
  with an explicit `% 2 ^ 32` at the one place the source truncates a wider
  value into a `PageID` (`ConfigurableCache::new_page`).
* `size_t` counters are modelled as `Nat` (no claim approaches `2 ^ 64`).
* `pin_count` is `std::atomic<int32_t>`; it is modelled as `Int` (no claim
  approaches the `int32_t` range, so two-sided wrap is not modelled).
* Locks, timing averages (`avg_hit_time_ms`, `avg_miss_time_ms`), the
  latency simulator and debug printing are concurrency / wall-clock / I/O
  artefacts with no bearing on the claims; they are omitted.  Statistics
  keep the three counters `accesses`, `hits`, `misses`.
* The fully associative auxiliary index `page_map` is kept in sync with the
  `pages` list by the source (every resident entry is in both); lookups
  through the map are modelled as scans of the `pages` list by identifier.
* `std::unordered_map` containers that the source only reads pointwise
  (`sections`, `page_to_section_map`) are modelled as association lists in
  insertion order; no settled claim depends on unordered iteration order
  (in `simple_size_optimization` the collected statistics are re-sorted and
  summed, which is order-insensitive for the inputs used here).
* `find_victim_in_set` uses a function-local `static size_t clock_hand`,
  i.e. one process-wide hand shared by every section; it is threaded
  explicitly through the functions that can reach it.
-/

namespace BPTree

/-- Model of `bptree::Page` (include/bptree/page.h).  The buffer is
`std::make_unique<uint8_t[]>(size)`, which value-initializes, i.e. the page
is born zero-filled. -/
structure Page where
  id : Nat
  data : List Nat
  dirty : Bool
  pinCount : Int
deriving Repr, DecidableEq

/-- Page construction `Page(id, size)`: zero-filled buffer, clean, pin 0. -/
def Page.create (id : Nat) (size : Nat) : Page :=
  { id := id, data := List.replicate size 0, dirty := false, pinCount := 0 }

/-- Model of `Page::pin`: `pin_count.fetch_add(1)` returns the previous value. -/
def Page.pin (p : Page) : Int × Page :=
  (p.pinCount, { p with pinCount := p.pinCount + 1 })

/-- Model of `Page::unpin`: `pin_count.fetch_add(-1)` returns the previous value. -/
def Page.unpin (p : Page) : Int × Page :=
  (p.pinCount, { p with pinCount := p.pinCount - 1 })

def Page.setDirty (p : Page) (d : Bool) : Page := { p with dirty := d }

/-- `CacheSection::Structure`. -/
inductive Structure where
  | DirectMapped
  | SetAssociative
  | FullyAssociative
deriving Repr, DecidableEq

/-- `CacheSection::CacheEntry`; the default constructor yields
`id = INVALID_PAGE_ID (= 0)`, `valid = false`, `referenced = false`. -/
structure CacheEntry where
  page : Option Page
  id : Nat
  valid : Bool
  referenced : Bool
deriving Repr, DecidableEq

def CacheEntry.init : CacheEntry :=
  { page := none, id := 0, valid := false, referenced := false }

/-- The three counters of `CacheSectionStats` (timing averages omitted). -/
structure Stats where
  accesses : Nat
  hits : Nat
  misses : Nat
deriving Repr, DecidableEq

def Stats.init : Stats := { accesses := 0, hits := 0, misses := 0 }

/-- `stats.accesses++; stats.hits++` of a fetch hit. -/
def Stats.hitBump (st : Stats) : Stats :=
  { st with accesses := st.accesses + 1, hits := st.hits + 1 }

/-- `stats.accesses++; stats.misses++` of a fetch miss / `new_page`. -/
def Stats.missBump (st : Stats) : Stats :=
  { st with accesses := st.accesses + 1, misses := st.misses + 1 }

/-- `CacheSectionStats::miss_rate`: `misses / accesses` when `accesses > 0`
else 0.  The source computes in `double`; it is modelled in `ℚ` (exact for
the small counter values any settled claim evaluates). -/
def Stats.missRate (st : Stats) : ℚ :=
  if st.accesses > 0 then (st.misses : ℚ) / (st.accesses : ℚ) else 0

/-- Model of `bptree::CacheSection`.  The field `struct` renders the C++
member `structure` (a Lean keyword). -/
structure CacheSection where
  sectionId : Nat
  size : Nat
  lineSize : Nat
  struct : Structure
  associativity : Nat
  numSets : Nat
  pagesCapacity : Nat
  sets : List (List CacheEntry)
  pages : List CacheEntry
  stats : Stats
deriving Repr, DecidableEq

/-- The `CacheSection` constructor: derives `num_sets` (floored to 1) and
`pages_capacity`, and pre-sizes `sets` for the set-based variants. -/
def CacheSection.mkSection (sectionId size lineSize : Nat) (struct : Structure)
    (associativity : Nat) : CacheSection :=
  let ns0 := size / (lineSize * associativity)
  let numSets := if ns0 = 0 then 1 else ns0
  { sectionId := sectionId, size := size, lineSize := lineSize,
    struct := struct, associativity := associativity, numSets := numSets,
    pagesCapacity := size / lineSize,
    sets := if struct = Structure.FullyAssociative then []
            else List.replicate numSets (List.replicate associativity CacheEntry.init),
    pages := [], stats := Stats.init }

/-- `CacheSection::get_set_index`. -/
def CacheSection.getSetIndex (s : CacheSection) (id : Nat) : Nat :=
  id % s.numSets

/-- Predicate of the set-based hit scan:
`entry.valid && entry.id == id && entry.page`. -/
def hitMatch (id : Nat) (e : CacheEntry) : Bool :=
  e.valid && e.id == id && e.page.isSome

/-- Set the `referenced` flag on the first entry matching the hit scan. -/
def markReferenced (id : Nat) : List CacheEntry → List CacheEntry
  | [] => []
  | e :: es =>
    if hitMatch id e then { e with referenced := true } :: es
    else e :: markReferenced id es

/-- Splice the first entry with this id to the front of the LRU list
(`pages.splice(pages.begin(), pages, page_it)`). -/
def moveIdToFront (id : Nat) (l : List CacheEntry) : List CacheEntry :=
  match l.find? (fun e => e.id == id) with
  | none => l
  | some e => e :: l.eraseP (fun e => e.id == id)

/-- Residency lookup, exactly the hit test of `CacheSection::fetch_page`:
set-based variants scan the target set for a valid entry with the id and a
page; the fully associative variant consults the id index and then checks
`valid` and the page pointer. -/
def CacheSection.lookupResident (s : CacheSection) (id : Nat) : Option Page :=
  match s.struct with
  | Structure.DirectMapped | Structure.SetAssociative =>
    if s.sets = [] then none
    else ((s.sets.getD (s.getSetIndex id) []).find? (hitMatch id)).bind (fun e => e.page)
  | Structure.FullyAssociative =>
    match s.pages.find? (fun e => e.id == id) with
    | none => none
    | some e => if e.valid && e.page.isSome then e.page else none

/-- Model of `CacheSection::fetch_page`.  A hit returns the stored page (no
pin change), sets the reference bit (set-based) or splices the entry to the
LRU front (fully associative), and bumps `accesses`/`hits`.  A miss bumps
`accesses`/`misses` and returns nothing — allocation is left to the caller.
The `sets.empty()` early return of the source (reachable only before the
constructor has run, hence never here) returns a miss without touching the
counters. -/
def CacheSection.fetchPage (s : CacheSection) (id : Nat) : Option Page × CacheSection :=
  match s.struct with
  | Structure.DirectMapped | Structure.SetAssociative =>
    if s.sets = [] then (none, s)
    else
      let setIdx := s.getSetIndex id
      match (s.sets.getD setIdx []).find? (hitMatch id) with
      | some e =>
        (e.page, { s with sets := s.sets.set setIdx (markReferenced id (s.sets.getD setIdx [])),
                          stats := s.stats.hitBump })
      | none => (none, { s with stats := s.stats.missBump })
  | Structure.FullyAssociative =>
    match s.pages.find? (fun e => e.id == id) with
    | some e =>
      if e.valid && e.page.isSome then
        (e.page, { s with pages := moveIdToFront id s.pages, stats := s.stats.hitBump })
      else (none, { s with stats := s.stats.missBump })
    | none => (none, { s with stats := s.stats.missBump })

/-- The clock scan of `CacheSection::find_victim_in_set`: starting at
`clock_hand % associativity`, return the first position whose reference bit
is clear, clearing the bits it passes over; after a full revolution every
bit has been cleared and the start position is returned.  The do/while body
runs at most `associativity` times, which is the fuel.  (For
`associativity = 0` the source computes `clock_hand % 0`, undefined
behaviour; the model returns position 0, per Lean `% 0`.) -/
def clockScan (assoc : Nat) : List CacheEntry → Nat → Nat → List CacheEntry × Nat
  | set, pos, 0 => (set, pos)
  | set, pos, fuel + 1 =>
    let e := set.getD pos CacheEntry.init
    if e.referenced = false then (set, pos)
    else clockScan assoc (set.set pos { e with referenced := false }) ((pos + 1) % assoc) fuel

/-- Model of `CacheSection::find_victim_in_set` (per-call mutation of the
scanned set and of the process-wide `clock_hand` made explicit).  Returns
the updated set, the victim position, and the new clock hand. -/
def findVictimInSet (set : List CacheEntry) (assoc clockHand : Nat) :
    List CacheEntry × Nat × Nat :=
  let start := clockHand % assoc
  let scanned := clockScan assoc set start assoc
  (scanned.1, scanned.2, (scanned.2 + 1) % assoc)

/-- `CacheSection::find_victim_in_fully_associative`: the LRU victim is the
back of `pages`; pin counts are not consulted. -/
def CacheSection.findVictimInFullyAssociative (s : CacheSection) : Option CacheEntry :=
  s.pages.getLast?

/-- Model of `CacheSection::allocate_page` (the lock-acquisition failure
paths, which only trigger on a throwing lock constructor, are omitted).
The process-wide clock hand is threaded through.  In every branch the
returned page is the freshly created `Page(id, line_size)`. -/
def CacheSection.allocatePage (s : CacheSection) (id : Nat) (clockHand : Nat) :
    Option Page × CacheSection × Nat :=
  match s.struct with
  | Structure.DirectMapped | Structure.SetAssociative =>
    let s :=
      if s.sets = [] then
        { s with sets := List.replicate s.numSets (List.replicate s.associativity CacheEntry.init) }
      else s
    let setIdx := s.getSetIndex id
    let set := s.sets.getD setIdx []
    match set.findIdx? (fun e => e.valid = false) with
    | some j =>
      let pg := Page.create id s.lineSize
      let entry := { page := some pg, id := id, valid := true, referenced := true : CacheEntry }
      (some pg, { s with sets := s.sets.set setIdx (set.set j entry) }, clockHand)
    | none =>
      let scanned := findVictimInSet set s.associativity clockHand
      let victimIdx := scanned.2.1
      let clockHand := scanned.2.2
      let set := scanned.1
      -- a valid dirty victim is marked clean (the write-back hook is a no-op
      -- here) and then overwritten wholesale below
      let pg := Page.create id s.lineSize
      let entry := { page := some pg, id := id, valid := true, referenced := true : CacheEntry }
      (some pg, { s with sets := s.sets.set setIdx (set.set victimIdx entry) }, clockHand)
  | Structure.FullyAssociative =>
    if s.pages.length < s.pagesCapacity then
      let pg := Page.create id s.lineSize
      let entry := { page := some pg, id := id, valid := true, referenced := false : CacheEntry }
      (some pg, { s with pages := entry :: s.pages }, clockHand)
    else if s.pages ≠ [] then
      -- evict the LRU tail (whatever its pin count), reuse the node, splice to front
      let victim := s.pages.getLastD CacheEntry.init
      let pg := Page.create id s.lineSize
      let entry := { victim with page := some pg, id := id, valid := true }
      (some pg, { s with pages := entry :: s.pages.dropLast }, clockHand)
    else
      let pg := Page.create id s.lineSize
      let entry := { page := some pg, id := id, valid := true, referenced := false : CacheEntry }
      (some pg, { s with pages := entry :: s.pages }, clockHand)

/-- Model of `CacheSection::new_page`: always counted as a miss, then
delegates to `allocate_page`. -/
def CacheSection.newPage (s : CacheSection) (id : Nat) (clockHand : Nat) :
    Option Page × CacheSection × Nat :=
  CacheSection.allocatePage { s with stats := s.stats.missBump } id clockHand

/-- Model of `CacheSection::resize`: a no-op when the size is unchanged;
otherwise every resident page is discarded — the set-based variants rebuild
empty sets, the fully associative variant clears its list — with no regard
to pin counts and no flushing. -/
def CacheSection.resize (s : CacheSection) (newSize : Nat) : CacheSection :=
  if newSize = s.size then s
  else
    let s := { s with size := newSize, pagesCapacity := newSize / s.lineSize }
    if s.struct = Structure.DirectMapped ∨ s.struct = Structure.SetAssociative then
      let ns0 := newSize / (s.lineSize * s.associativity)
      let numSets := if ns0 = 0 then 1 else ns0
      { s with numSets := numSets,
               sets := List.replicate numSets (List.replicate s.associativity CacheEntry.init) }
    else
      { s with pages := [] }

/-- `CacheSection::page_count`: valid entries of the set-based storage, or
the length of the fully associative list. -/
def CacheSection.pageCount (s : CacheSection) : Nat :=
  if s.struct = Structure.DirectMapped ∨ s.struct = Structure.SetAssociative then
    (s.sets.map (fun set => (set.filter (fun e => e.valid)).length)).sum
  else
    s.pages.length

/-- `CacheSection::reset_stats`. -/
def CacheSection.resetStats (s : CacheSection) : CacheSection :=
  { s with stats := Stats.init }

/-- Apply a mutation to the resident page with the given id (models a write
through the `Page*` that aliases the storage of the owning section). -/
def CacheSection.modifyPage (s : CacheSection) (id : Nat) (f : Page → Page) : CacheSection :=
  match s.struct with
  | Structure.DirectMapped | Structure.SetAssociative =>
    let setIdx := s.getSetIndex id
    let set := (s.sets.getD setIdx []).map
      (fun e => if hitMatch id e then { e with page := e.page.map f } else e)
    { s with sets := s.sets.set setIdx set }
  | Structure.FullyAssociative =>
    let pages := s.pages.map
      (fun e => if e.id == id then { e with page := e.page.map f } else e)
    { s with pages := pages }

/-! Model of `bptree::ConfigurableCache`, the router over sections. -/

/-- Router state.  `sections` and `page_to_section_map` are
`std::unordered_map` in the source, modelled as association lists in
insertion order; `clockHand` is the process-wide static of
`find_victim_in_set`. -/
structure ConfigurableCache where
  totalSize : Nat
  availableSize : Nat
  pageSize : Nat
  nextSectionId : Nat
  nextPageId : Nat
  sections : List (Nat × CacheSection)
  defaultSectionId : Nat
  pageToSectionMap : List (Nat × Nat)
  pageRanges : List (Nat × Nat)
  rangeSectionIds : List Nat
  clockHand : Nat
deriving Repr, DecidableEq

def ConfigurableCache.lookupSection (c : ConfigurableCache) (sid : Nat) : Option CacheSection :=
  (c.sections.find? (fun p => p.1 == sid)).map (fun p => p.2)

/-- Replace the stored state of the section with this id. -/
def ConfigurableCache.writeSection (c : ConfigurableCache) (sid : Nat) (sec : CacheSection) :
    ConfigurableCache :=
  { c with sections := c.sections.map (fun p => if p.1 == sid then (p.1, sec) else p) }

/-- Model of `ConfigurableCache::create_section`: clamp the requested size
to the available pool, register the section under the next section id, and
deduct from the pool. -/
def ConfigurableCache.createSection (c : ConfigurableCache) (size lineSize : Nat)
    (struct : Structure) (associativity : Nat) : Nat × ConfigurableCache :=
  let size := if size > c.availableSize then c.availableSize else size
  let sid := c.nextSectionId
  (sid, { c with
      nextSectionId := sid + 1,
      sections := c.sections ++ [(sid, CacheSection.mkSection sid size lineSize struct associativity)],
      availableSize := c.availableSize - size })

/-- The `ConfigurableCache` constructor: everything starts in one default
fully associative section spanning the whole budget (`create_section` is
called with the default associativity argument 8). -/
def ConfigurableCache.mkCache (totalSize pageSize defaultLineSize : Nat) : ConfigurableCache :=
  let base : ConfigurableCache :=
    { totalSize := totalSize, availableSize := totalSize, pageSize := pageSize,
      nextSectionId := 0, nextPageId := 0, sections := [], defaultSectionId := 0,
      pageToSectionMap := [], pageRanges := [], rangeSectionIds := [], clockHand := 0 }
  let r := base.createSection totalSize defaultLineSize Structure.FullyAssociative 8
  { r.2 with defaultSectionId := r.1 }

/-- Model of `ConfigurableCache::get_section_for_page`: override map, then
first matching `(low, high)` range, then the default section id. -/
def ConfigurableCache.getSectionForPage (c : ConfigurableCache) (id : Nat) : Nat :=
  match c.pageToSectionMap.find? (fun p => p.1 == id) with
  | some p => p.2
  | none =>
    match (c.pageRanges.zip c.rangeSectionIds).find?
        (fun r => decide (r.1.1 ≤ id ∧ id ≤ r.1.2)) with
    | some r => r.2
    | none => c.defaultSectionId

/-- Model of `ConfigurableCache::find_section_for_page`: like
`get_section_for_page` but each resolution step is skipped when the mapped
section no longer exists, falling back to the default section and finally
to the first registered section.  Returns the section id together with the
section so the caller can write mutations back. -/
def ConfigurableCache.findSectionForPage (c : ConfigurableCache) (id : Nat) :
    Option (Nat × CacheSection) :=
  let fromOverride :=
    match c.pageToSectionMap.find? (fun p => p.1 == id) with
    | some p => (c.lookupSection p.2).map (fun s => (p.2, s))
    | none => none
  match fromOverride with
  | some r => some r
  | none =>
    let fromRanges := ((c.pageRanges.zip c.rangeSectionIds).filterMap
      (fun r => if r.1.1 ≤ id ∧ id ≤ r.1.2 then (c.lookupSection r.2).map (fun s => (r.2, s))
                else none)).head?
    match fromRanges with
    | some r => some r
    | none =>
      match c.lookupSection c.defaultSectionId with
      | some s => some (c.defaultSectionId, s)
      | none => c.sections.head?

/-- Model of `ConfigurableCache::new_page`.  The 64-bit (`size_t`) counter
`next_page_id` is bumped to 1 when it reads 0, then `PageID new_id =
next_page_id++` truncates it into the 32-bit `PageID` — hence the explicit
`% 2 ^ 32`.  The page is allocated in the resolved section and pinned
before being returned.  (When no section resolves, which requires an empty
registry, the source dereferences a null entry; the model returns nothing.) -/
def ConfigurableCache.newPage (c : ConfigurableCache) : Option Page × ConfigurableCache :=
  let c := if c.nextPageId = 0 then { c with nextPageId := 1 } else c
  let newId := c.nextPageId % 2 ^ 32
  let c := { c with nextPageId := c.nextPageId + 1 }
  match c.findSectionForPage newId with
  | none => (none, c)
  | some r =>
    let alloc := r.2.newPage newId c.clockHand
    let c := { c.writeSection r.1 alloc.2.1 with clockHand := alloc.2.2 }
    match alloc.1 with
    | none => (none, c)
    | some pg =>
      let pinned := (pg.pin).2
      (some pinned, c.writeSection r.1 ((alloc.2.1).modifyPage newId (fun p => (p.pin).2)))

/-- Model of `ConfigurableCache::fetch_page`: resolve the section, try its
`fetch_page`; on a miss delegate to `new_page` of that same section.  No
pin is taken on either path. -/
def ConfigurableCache.fetchPage (c : ConfigurableCache) (id : Nat) :
    Option Page × ConfigurableCache :=
  match c.findSectionForPage id with
  | none => (none, c)
  | some r =>
    let f := r.2.fetchPage id
    match f.1 with
    | some pg => (some pg, c.writeSection r.1 f.2)
    | none =>
      let alloc := (f.2).newPage id c.clockHand
      (alloc.1, { c.writeSection r.1 alloc.2.1 with clockHand := alloc.2.2 })

/-- Model of `ConfigurableCache::unpin_page` (the section resolves by
`page->get_id()`; `CacheSection::unpin_page` sets the dirty flag when asked
and decrements the pin count unconditionally). -/
def ConfigurableCache.unpinPage (c : ConfigurableCache) (id : Nat) (dirty : Bool) :
    ConfigurableCache :=
  match c.findSectionForPage id with
  | none => c
  | some r =>
    c.writeSection r.1 (r.2.modifyPage id
      (fun p => ((if dirty then p.setDirty true else p).unpin).2))

/-- Model of `ConfigurableCache::pin_page`. -/
def ConfigurableCache.pinPage (c : ConfigurableCache) (id : Nat) : ConfigurableCache :=
  match c.findSectionForPage id with
  | none => c
  | some r => c.writeSection r.1 (r.2.modifyPage id (fun p => (p.pin).2))

/-- Model of `ConfigurableCache::resize_section`: growth is clamped to the
available pool; the pool is adjusted and the section resized. -/
def ConfigurableCache.resizeSection (c : ConfigurableCache) (sid newSize : Nat) :
    ConfigurableCache :=
  match c.lookupSection sid with
  | none => c
  | some sec =>
    let oldSize := sec.size
    if newSize > oldSize then
      let additional := newSize - oldSize
      let newSize := if additional > c.availableSize then oldSize + c.availableSize else newSize
      let c := { c with availableSize := c.availableSize - (newSize - oldSize) }
      c.writeSection sid (sec.resize newSize)
    else
      let c := { c with availableSize := c.availableSize + (oldSize - newSize) }
      c.writeSection sid (sec.resize newSize)

/-- Model of `ConfigurableCache::map_page_range_to_section`: reject unknown
section ids; delete every range that intersects `[start, stop]`; append the
new range. -/
def ConfigurableCache.mapPageRangeToSection (c : ConfigurableCache) (start stop sid : Nat) :
    ConfigurableCache :=
  if (c.lookupSection sid).isNone then c
  else
    let kept := (c.pageRanges.zip c.rangeSectionIds).filter
      (fun r => decide (r.1.2 < start ∨ stop < r.1.1))
    { c with pageRanges := kept.map (fun r => r.1) ++ [(start, stop)],
             rangeSectionIds := kept.map (fun r => r.2) ++ [sid] }

/-- The page currently resident for this id in the section the router
resolves for it (observer used by the theorems). -/
def ConfigurableCache.residentPage (c : ConfigurableCache) (id : Nat) : Option Page :=
  (c.findSectionForPage id).bind (fun r => r.2.lookupResident id)

/-- Size raw accessor for a section id (0 when absent). -/
def ConfigurableCache.sectionSize (c : ConfigurableCache) (sid : Nat) : Nat :=
  match c.lookupSection sid with
  | some s => s.size
  | none => 0

/-- Line size accessor for a section id (0 when absent, mirroring that the
source indexes `sections[id]` only for ids it just enumerated). -/
def ConfigurableCache.sectionLineSize (c : ConfigurableCache) (sid : Nat) : Nat :=
  match c.lookupSection sid with
  | some s => s.lineSize
  | none => 0

/-! The adaptive optimizer `ConfigurableCache::simple_size_optimization`. -/

/-- Descending insertion by `miss_rate` (models `std::sort` with the strict
comparator `a.miss_rate() > b.miss_rate()`; the order of equal rates is
unspecified in the source and no settled claim has ties). -/
def insertByRate (x : Nat × Stats) : List (Nat × Stats) → List (Nat × Stats)
  | [] => [x]
  | y :: ys => if x.2.missRate > y.2.missRate then x :: y :: ys else y :: insertByRate x ys

def sortByRate (l : List (Nat × Stats)) : List (Nat × Stats) :=
  l.foldr insertByRate []

/-- One pass of the excess-trimming loop
(`for i = n-1; i > 0 && excess > 0; --i`): reduce entry `i` by at most its
distance to the `2 × line_size` floor.  Early exit on `excess = 0` is
equivalent to continuing with zero reductions. -/
def reduceStep (c : ConfigurableCache) (acc : List (Nat × Nat) × Nat) (i : Nat) :
    List (Nat × Nat) × Nat :=
  match (acc.1).get? i with
  | none => acc
  | some e =>
    let maxReduction := e.2 - 2 * c.sectionLineSize e.1
    let reduction := min acc.2 maxReduction
    ((acc.1).set i (e.1, e.2 - reduction), acc.2 - reduction)

/-- One pass of the surplus-distribution loop
(`for i = 0; i < n && extra > 0; ++i`): entry `i` gains
`min(extra, extra / (n - i))`. -/
def extraStep (n : Nat) (acc : List (Nat × Nat) × Nat) (i : Nat) :
    List (Nat × Nat) × Nat :=
  match (acc.1).get? i with
  | none => acc
  | some e =>
    let addition := min acc.2 (acc.2 / (n - i))
    ((acc.1).set i (e.1, e.2 + addition), acc.2 - addition)

/-- The body of the first sizing loop: the proportional share of the pool
(`static_cast<size_t>(proportion * total)`, i.e. the floor), raised to the
`2 × line_size` minimum. -/
def initialTarget (c : ConfigurableCache) (pool : Nat) (totalMissRate : ℚ)
    (p : Nat × Stats) : Nat × Nat :=
  let proportion : ℚ := p.2.missRate / totalMissRate
  let raw : Nat := (Int.floor (proportion * (pool : ℚ))).toNat
  let floorSize := c.sectionLineSize p.1 * 2
  (p.1, if raw < floorSize then floorSize else raw)

/-- The target sizes the optimizer computes before applying them: section
statistics sorted by descending miss rate, the proportional shares of the
pool `Σ current sizes + available`, then the two adjustment loops toward
the exact pool sum.  Pairs are `(section id, target size)`, in sorted
order.  The `double` arithmetic of the source is modelled in `ℚ` with
`static_cast<size_t>` as `floor`. -/
def ConfigurableCache.optimizeTargets (c : ConfigurableCache) : List (Nat × Nat) :=
  let sectionStats := c.sections.map (fun p => (p.1, p.2.stats))
  let totalAllocated := (c.sections.map (fun p => p.2.size)).sum
  let sorted := sortByRate sectionStats
  let totalMissRate : ℚ := (sorted.map (fun p => p.2.missRate)).sum
  let pool := totalAllocated + c.availableSize
  let initial := sorted.map (initialTarget c pool totalMissRate)
  let n := initial.length
  let totalNew := (initial.map (fun p => p.2)).sum
  if totalNew > pool then
    (((List.range n).reverse.dropLast).foldl (reduceStep c) (initial, totalNew - pool)).1
  else if totalNew < pool then
    ((List.range n).foldl (extraStep n) (initial, pool - totalNew)).1
  else initial

/-- Model of `ConfigurableCache::simple_size_optimization`: return
unchanged when at most one section exists or the total miss rate is zero;
otherwise apply the computed targets through `resize_section`, in
descending miss-rate order. -/
def ConfigurableCache.simpleSizeOptimization (c : ConfigurableCache) : ConfigurableCache :=
  let sectionStats := c.sections.map (fun p => (p.1, p.2.stats))
  if sectionStats.length ≤ 1 then c
  else
    let totalMissRate : ℚ := (sectionStats.map (fun p => p.2.missRate)).sum
    if totalMissRate ≤ 0 then c
    else
      (c.optimizeTargets).foldl (fun c t => c.resizeSection t.1 t.2) c

/-! Model of `bptree::SimplifiedConfigurableCache`
(include/bptree/simplified_configurable_cache.h, the variant with the
debug-mode eviction that probes pin counts — off by one, see
`simplifiedEvictScan` — and expands capacity when the probe clears no
resident page). -/

structure SimplifiedConfigurableCache where
  pageSize : Nat
  capacity : Nat
  pageMap : List (Nat × Page)
  lruList : List Nat
  nextId : Nat
  stats : Stats
deriving Repr, DecidableEq

/-- The constructor: `capacity = total_size / page_size`, floored at 1;
identifiers start at 1. -/
def SimplifiedConfigurableCache.mkSimplified (totalSize pageSize : Nat) :
    SimplifiedConfigurableCache :=
  let cap := totalSize / pageSize
  { pageSize := pageSize, capacity := if cap = 0 then 1 else cap,
    pageMap := [], lruList := [], nextId := 1, stats := Stats.init }

/-- `SimplifiedConfigurableCache::updateLRU`: remove the id if present and
reinsert at the front. -/
def simplifiedUpdateLRU (id : Nat) (lru : List Nat) : List Nat :=
  id :: lru.eraseP (fun x => x == id)

/-- The eviction scan of `SimplifiedConfigurableCache::evictPage` over the
LRU list taken least-recently-used first (the reverse iteration of the
source).  Stale LRU entries that are no longer in the page map are dropped.
The pin probe is `pin_count = page->pin(); page->unpin(); pin_count--`:
`pin()` returns the value *before* its increment and `unpin()` restores the
counter, so the extra `pin_count--` (commented in the source as adjusting
for the temporary pin) leaves the local at `actual − 1`, and the test
`pin_count <= 0` evicts every page whose actual pin count is ≤ 1.  Returns
the remaining LRU-first list, the page map, and whether an eviction
happened. -/
def simplifiedEvictScan (m : List (Nat × Page)) :
    List Nat → List Nat × List (Nat × Page) × Bool
  | [] => ([], m, false)
  | id :: rest =>
    match m.find? (fun p => p.1 == id) with
    | none => simplifiedEvictScan m rest
    | some p =>
      -- pin/unpin probe: net-zero counter mutation, reads the previous value
      if (p.2.pin).1 - 1 ≤ 0 then
        -- dirty pages would be written back here; the entry is then dropped
        (rest, m.eraseP (fun q => q.1 == id), true)
      else
        let r := simplifiedEvictScan m rest
        (id :: r.1, r.2.1, r.2.2)

/-- Model of the debug-variant `SimplifiedConfigurableCache::evictPage`:
scan the LRU list from least to most recently used for a page whose
(probed, off-by-one) pin count permits eviction; only when every resident
page has an actual pin count ≥ 2 does the scan fail, and then no page is
evicted and the capacity is incremented instead. -/
def SimplifiedConfigurableCache.evictPage (c : SimplifiedConfigurableCache) :
    SimplifiedConfigurableCache :=
  let r := simplifiedEvictScan c.pageMap c.lruList.reverse
  let c := { c with pageMap := r.2.1, lruList := r.1.reverse }
  if r.2.2 then c else { c with capacity := c.capacity + 1 }

/-- Model of the debug-variant `SimplifiedConfigurableCache::new_page`: take
the next id (a 32-bit atomic counter), evict when at capacity, insert the
new zero-filled page, update the LRU list, and pin the page before
returning it. -/
def SimplifiedConfigurableCache.newPage (c : SimplifiedConfigurableCache) :
    Page × SimplifiedConfigurableCache :=
  let id := c.nextId % 2 ^ 32
  let c := { c with nextId := c.nextId + 1 }
  let c := if c.pageMap.length ≥ c.capacity then c.evictPage else c
  let pg := ((Page.create id c.pageSize).pin).2
  (pg, { c with pageMap := (c.pageMap.eraseP (fun q => q.1 == id)) ++ [(id, pg)],
                lruList := simplifiedUpdateLRU id c.lruList })

/-! Operation alphabet for the per-section statistics invariant: the
operations the specification names as touching the counters.  The clock
hand is threaded alongside the section. -/

inductive SecOp where
  | fetch (id : Nat)
  | newPage (id : Nat)
  | resetStats
  | resize (n : Nat)
deriving Repr, DecidableEq

def secStep (s : CacheSection × Nat) : SecOp → CacheSection × Nat
  | SecOp.fetch id => ((s.1.fetchPage id).2, s.2)
  | SecOp.newPage id =>
    let r := s.1.newPage id s.2
    (r.2.1, r.2.2)
  | SecOp.resetStats => (s.1.resetStats, s.2)
  | SecOp.resize n => (s.1.resize n, s.2)

def secRun (s : CacheSection × Nat) (ops : List SecOp) : CacheSection × Nat :=
  ops.foldl secStep s

/-! Iterated router allocation, for the identifier-sequence claim. -/

/-- State of the router after `n` calls to `new_page`. -/
def ConfigurableCache.iterNewPage (c : ConfigurableCache) : Nat → ConfigurableCache
  | 0 => c
  | n + 1 => ((c.iterNewPage n).newPage).2

/-- The identifier handed out by the `n`-th `new_page` call (`n ≥ 1`). -/
def ConfigurableCache.idOfCall (c : ConfigurableCache) (n : Nat) : Option Nat :=
  (((c.iterNewPage (n - 1)).newPage).1).map Page.id

/-! Concrete scenario states used by the claim theorems. -/

/-- Scenario of claim C1 / spec §8 scenario 3: one fully associative line,
first page allocated and pinned by `new_page`. -/
def c1cache : ConfigurableCache := ConfigurableCache.mkCache 64 64 64

def c1afterFirst : ConfigurableCache := (c1cache.newPage).2

def c1second : Option Page × ConfigurableCache := c1afterFirst.newPage

/-- The same scenario on the `SimplifiedConfigurableCache` model. -/
def c1simplified : Page × SimplifiedConfigurableCache :=
  (((SimplifiedConfigurableCache.mkSimplified 64 64).newPage).2).newPage

/-- Scenario of claim C2: a two-line cache with page 5 made resident by a
router fetch (which fabricates it unpinned). -/
def c2state : ConfigurableCache :=
  ((ConfigurableCache.mkCache 128 64 64).fetchPage 5).2

/-- Scenario of claim C3: allocate page 1 (pin 1), then unpin twice. -/
def c3state : ConfigurableCache :=
  ((((ConfigurableCache.mkCache 128 64 64).newPage).2).unpinPage 1 false).unpinPage 1 false

/-- Scenario of claim C5 / spec §8 scenario 4: sections A (id 1,
direct-mapped) and B (id 2, fully associative), `map_range(1, 100, A)` then
`map_range(50, 150, B)`. -/
def c5state : ConfigurableCache :=
  let c := ConfigurableCache.mkCache (8 * 64) 64 64
  let c := c.resizeSection 0 (2 * 64)
  let rA := c.createSection (3 * 64) 64 Structure.DirectMapped 1
  let rB := rA.2.createSection (3 * 64) 64 Structure.FullyAssociative 8
  let c := rB.2.mapPageRangeToSection 1 100 rA.1
  c.mapPageRangeToSection 50 150 rB.1

/-- Scenario of claim C6 / spec §8 scenario 2: a three-line fully
associative default section, fetches of 1, 2, 3, 4, then 2. -/
def c6state : ConfigurableCache :=
  let c := ConfigurableCache.mkCache (3 * 64) 64 64
  let c := (c.fetchPage 1).2
  let c := (c.fetchPage 2).2
  let c := (c.fetchPage 3).2
  let c := (c.fetchPage 4).2
  (c.fetchPage 2).2

/-- Scenario of claim C7: a two-line fully associative section holding
unpinned pages 1 and 2 (LRU order [2, 1]), then resized to one line. -/
def c7sec : CacheSection :=
  let s := CacheSection.mkSection 0 (2 * 64) 64 Structure.FullyAssociative 8
  let s := (s.newPage 1 0).2.1
  (s.newPage 2 0).2.1

/-- Scenario of claim C8 / spec §8 scenario 5: an 11-line budget, default
section 0 shrunk to one line, section 1 of ten lines serving pages
100–199; fetches drive section 0 to miss rate 3/4 (8 accesses, 6 misses)
and section 1 to 1/4 (8 accesses, 2 misses), both rates exact in `double`.
Then the optimizer runs on this state. -/
def c8state : ConfigurableCache :=
  let c := ConfigurableCache.mkCache (11 * 64) 64 64
  let c := c.resizeSection 0 64
  let r1 := c.createSection (10 * 64) 64 Structure.FullyAssociative 8
  let c := r1.2.mapPageRangeToSection 100 199 r1.1
  let c := (c.fetchPage 10).2
  let c := (c.fetchPage 11).2
  let c := (c.fetchPage 12).2
  let c := (c.fetchPage 12).2
  let c := (c.fetchPage 12).2
  let c := (c.fetchPage 100).2
  let c := (c.fetchPage 100).2
  let c := (c.fetchPage 100).2
  let c := (c.fetchPage 100).2
  let c := (c.fetchPage 100).2
  let c := (c.fetchPage 100).2
  (c.fetchPage 100).2

/-- The section the router resolves for a fresh id in the claim C1 state:
a one-line fully associative section holding page 1 with pin count 1. -/
def c3sec : CacheSection :=
  ((c1afterFirst.findSectionForPage 2).getD
    (0, CacheSection.mkSection 0 0 0 Structure.FullyAssociative 8)).2

/-- The section the router resolves for id 5 in the claim C2 state. -/
def c2sec : CacheSection :=
  ((c2state.findSectionForPage 5).getD
    (0, CacheSection.mkSection 0 0 0 Structure.FullyAssociative 8)).2

/-- A fresh one-line cache (claim C10 witness input). -/
def c10cache : ConfigurableCache := ConfigurableCache.mkCache 64 64 64

/-- The section the fresh cache resolves for id 0. -/
def c10sec : CacheSection :=
  ((c10cache.findSectionForPage 0).getD
    (0, CacheSection.mkSection 0 0 0 Structure.FullyAssociative 8)).2

/-! Theorems. -/

/-- The first component of a section fetch is exactly the residency
lookup: a hit returns the stored page unmodified (pin count included), a
miss returns nothing. -/
theorem fetchPage_fst (s : CacheSection) (id : Nat) :
    (s.fetchPage id).1 = s.lookupResident id := by
  cases hstruct : s.struct with
  | FullyAssociative =>
    simp only [CacheSection.fetchPage, CacheSection.lookupResident, hstruct]
    split
    · split <;> simp_all
    · rename_i heq
      simp [heq]
  | DirectMapped =>
    simp only [CacheSection.fetchPage, CacheSection.lookupResident, hstruct]
    by_cases hA : s.sets = []
    · simp [hA]
    · simp only [hA, if_false]
      split
      · rename_i e hfind
        simp_all
      · rename_i heq
        rw [heq]
        rfl
  | SetAssociative =>
    simp only [CacheSection.fetchPage, CacheSection.lookupResident, hstruct]
    by_cases hA : s.sets = []
    · simp [hA]
    · simp only [hA, if_false]
      split
      · rename_i e hfind
        simp_all
      · rename_i heq
        rw [heq]
        rfl

/-- Claim C2, amended.  For every resident id the router fetch returns the
stored page exactly as stored: the pin count is not incremented by the
call (only `new_page` pins; `fetch_page` merely reads, updates recency and
statistics). -/
theorem c2_amended (c : ConfigurableCache) (id sid : Nat) (sec : CacheSection) (pg : Page)
    (hs : c.findSectionForPage id = some (sid, sec))
    (hr : sec.lookupResident id = some pg) :
    (c.fetchPage id).1 = some pg := by
  have h1 : (sec.fetchPage id).1 = some pg := (fetchPage_fst sec id).trans hr
  unfold ConfigurableCache.fetchPage
  rw [hs]
  rcases hf : sec.fetchPage id with ⟨fst, s2⟩
  rw [hf] at h1
  simp only at h1
  simp [hf, h1]

/-- Witness for `c2_amended`: in the claim C2 state, page 5 is resident
with pin count 0 and fetch returns precisely that page. -/
theorem c2_amended_witness : (c2state.fetchPage 5).1 = some (Page.create 5 64) :=
  c2_amended c2state 5 0 c2sec (Page.create 5 64) (by decide) (by decide)

/-- Claim C3, amended.  Eviction does not require a zero pin count: in a
full, nonempty fully associative section, `allocate_page` always replaces
the LRU tail entry — whatever its pin count (no hypothesis constrains it) —
and returns the freshly created page.  Together with `c3_counterexample`
(the unguarded `unpin` drives a pin count to −1) this replaces the claimed
invariant. -/
theorem c3_amended (s : CacheSection) (id ck : Nat)
    (hfa : s.struct = Structure.FullyAssociative)
    (hfull : s.pagesCapacity ≤ s.pages.length)
    (hne : s.pages ≠ []) :
    (s.allocatePage id ck).1 = some (Page.create id s.lineSize) ∧
    ((s.allocatePage id ck).2.1).pages =
      ({ s.pages.getLastD CacheEntry.init with
          page := some (Page.create id s.lineSize), id := id, valid := true } : CacheEntry)
        :: s.pages.dropLast := by
  unfold CacheSection.allocatePage
  rw [hfa]
  have hlt : ¬ (s.pages.length < s.pagesCapacity) := by omega
  rw [if_neg hlt, if_pos hne]
  exact ⟨rfl, rfl⟩

/-- Witness for `c3_amended`: the one-line section of the claim C1 state,
whose sole resident entry (page 1) is pinned with pin count 1, still gets
its tail evicted by `allocate_page 2`. -/
theorem c3_amended_witness :
    ((c3sec.pages.getLastD CacheEntry.init).page).map Page.pinCount = some 1 ∧
    (c3sec.allocatePage 2 0).1 = some (Page.create 2 c3sec.lineSize) ∧
    ((c3sec.allocatePage 2 0).2.1).pages =
      ({ c3sec.pages.getLastD CacheEntry.init with
          page := some (Page.create 2 c3sec.lineSize), id := 2, valid := true } : CacheEntry)
        :: c3sec.pages.dropLast := by
  refine ⟨by decide, ?_⟩
  exact c3_amended c3sec 2 0 (by decide) (by decide) (by decide)

/-- Claim C7, amended.  `CacheSection::resize` with any size different from
the current one discards every resident page: the section is left with a
resident count of 0 (set-based variants rebuild empty sets, the fully
associative variant clears its LRU list), with no regard to pin counts,
recency, or dirtiness. -/
theorem c7_amended (s : CacheSection) (n : Nat) (h : n ≠ s.size) :
    (s.resize n).pageCount = 0 := by
  have hf : ∀ k, (List.replicate k CacheEntry.init).filter (fun e => e.valid) = [] := by
    intro k
    apply List.filter_eq_nil_iff.mpr
    intro a ha
    rw [List.eq_of_mem_replicate ha]
    decide
  unfold CacheSection.resize CacheSection.pageCount
  rw [if_neg h]
  by_cases hs : s.struct = Structure.DirectMapped ∨ s.struct = Structure.SetAssociative
  · simp [hs, List.map_replicate, hf]
  · simp [hs]

/-- `allocate_page` never touches the statistics counters. -/
theorem allocatePage_stats (s : CacheSection) (id ck : Nat) :
    ((s.allocatePage id ck).2.1).stats = s.stats := by
  unfold CacheSection.allocatePage
  cases hstruct : s.struct <;> simp only
  case FullyAssociative =>
    split
    · rfl
    · split <;> rfl
  all_goals
    by_cases hA : s.sets = [] <;>
      simp only [hA, if_true, if_false, ite_true, ite_false] <;>
      split <;> rfl

/-- The per-section statistics invariant `accesses = hits + misses`. -/
def statsInv (s : CacheSection) : Prop :=
  s.stats.accesses = s.stats.hits + s.stats.misses

/-- Fetch preserves the statistics invariant (hit path bumps
accesses/hits, miss path bumps accesses/misses, the pre-constructor early
return bumps nothing). -/
theorem fetchPage_statsInv (s : CacheSection) (id : Nat) (h : statsInv s) :
    statsInv ((s.fetchPage id).2) := by
  unfold statsInv at h ⊢
  unfold CacheSection.fetchPage
  cases hstruct : s.struct <;> simp only
  case FullyAssociative =>
    split
    · split <;> simp [Stats.hitBump, Stats.missBump] <;> omega
    · simp [Stats.missBump]; omega
  all_goals
    by_cases hA : s.sets = [] <;>
      simp only [hA, if_true, if_false, ite_true, ite_false]
  all_goals try exact h
  all_goals
    split <;> simp [Stats.hitBump, Stats.missBump] <;> omega

/-- `new_page` preserves the statistics invariant: it bumps
accesses/misses and delegates to `allocate_page`, which leaves the
counters alone. -/
theorem newPage_statsInv (s : CacheSection) (id ck : Nat) (h : statsInv s) :
    statsInv ((s.newPage id ck).2.1) := by
  unfold statsInv at h ⊢
  unfold CacheSection.newPage
  rw [allocatePage_stats]
  simp [Stats.missBump]
  omega

/-- Claim C4, confirmed.  Starting from any freshly constructed section,
every sequence of the operations that touch the counters (`fetch_page`,
`new_page`, `reset_stats`; `resize` is included and leaves them unchanged)
maintains `accesses = hits + misses`. -/
theorem c4_stats_invariant (sid size lineSize : Nat) (struct : Structure)
    (associativity : Nat) (ops : List SecOp) :
    statsInv ((secRun (CacheSection.mkSection sid size lineSize struct associativity, 0) ops).1) := by
  have hstep : ∀ (p : CacheSection × Nat) (op : SecOp),
      statsInv p.1 → statsInv (secStep p op).1 := by
    intro p op hp
    cases op with
    | fetch i => exact fetchPage_statsInv p.1 i hp
    | newPage i => exact newPage_statsInv p.1 i p.2 hp
    | resetStats => simp [secStep, CacheSection.resetStats, statsInv, Stats.init]
    | resize n =>
      simp only [secStep]
      unfold CacheSection.resize
      split
      · exact hp
      · dsimp only
        split <;> exact hp
  have hrun : ∀ (ops : List SecOp) (p : CacheSection × Nat),
      statsInv p.1 → statsInv ((secRun p ops).1) := by
    intro ops
    induction ops with
    | nil => intro p hp; exact hp
    | cons op rest ih =>
      intro p hp
      exact ih (secStep p op) (hstep p op hp)
  exact hrun ops _ (by simp [CacheSection.mkSection, statsInv, Stats.init])

/-- Witness for `c7_amended`: the two-page section of the claim C7
scenario resized to one line retains nothing. -/
theorem c7_amended_witness : (c7sec.resize 64).pageCount = 0 :=
  c7_amended c7sec 64 (by decide)

/-- Claim C1, counterexample.  The claim states that on a one-line section
holding only the pinned page 1, `new_page()` for a second page fails with a
cache-exhaustion error.  In the code it does not fail: the second call
returns page 2, evicting page 1 even though page 1 is pinned (pin count 1). -/
theorem c1_counterexample :
    (c1afterFirst.residentPage 1).map Page.pinCount = some 1 ∧
    (c1second.1).map Page.id = some 2 ∧
    c1second.2.residentPage 1 = none := by
  decide

/-- Claim C1, amended.  No no-victim or cache-exhaustion error exists: on an
all-pinned one-line section, `CacheSection`/`ConfigurableCache` evict the
pinned LRU tail and `new_page` for page 2 succeeds (page 1, pin count 1, is
evicted); `SimplifiedConfigurableCache` also succeeds — its eviction probe
is off by one (`pin()` returns the pre-increment value and the source
decrements once more), so the once-pinned page 1 is likewise evicted and
the capacity stays 1 with only page 2 (pinned) resident.  The
capacity-expansion fallback runs only when every resident page has an
actual pin count ≥ 2. -/
theorem c1_amended :
    ((c1afterFirst.residentPage 1).map Page.pinCount = some 1 ∧
      (c1second.1).map Page.id = some 2 ∧
      (c1second.1).isSome = true ∧
      c1second.2.residentPage 1 = none ∧
      (c1second.2.residentPage 2).isSome = true) ∧
    ((c1simplified.1).id = 2 ∧
      c1simplified.2.capacity = 1 ∧
      (c1simplified.2.pageMap.map (fun p => (p.1, p.2.pinCount))) = [(2, 1)] ∧
      c1simplified.2.lruList = [2]) := by
  decide

/-- Claim C2, counterexample.  Page 5 is resident with pin count 0; the
claim states `fetch(5)` returns it with the pin count incremented (hence
1), but the code returns it with pin count still 0. -/
theorem c2_counterexample :
    (c2state.residentPage 5).map Page.pinCount = some 0 ∧
    ((c2state.fetchPage 5).1).map Page.pinCount = some 0 ∧
    ¬ (((c2state.fetchPage 5).1).map Page.pinCount = some 1) := by
  decide

/-- Claim C3, counterexample.  The claim states `pin_count ≥ 0` across
every operation sequence; after `new_page` (pin 1) and two `unpin_page`
calls the resident page 1 has pin count −1. -/
theorem c3_counterexample :
    (c3state.residentPage 1).map Page.pinCount = some (-1) := by
  decide

/-- Claim C5, counterexample.  After `map_range(1, 100, A)` and
`map_range(50, 150, B)` the claim states `section_for_page(30)` returns A
(section id 1); the code deleted the whole overlapping range `(1, 100)`,
so 30 resolves to the default section (id 0) instead. -/
theorem c5_counterexample :
    c5state.getSectionForPage 30 = c5state.defaultSectionId ∧
    c5state.getSectionForPage 30 ≠ 1 := by
  decide

/-- Claim C5, amended.  `section_for_page(75)` returns B (id 2) and
`section_for_page(200)` returns the default section, as claimed; but
`section_for_page(30)` also returns the default section, because the new
range deletes every intersecting range wholesale rather than trimming it. -/
theorem c5_amended :
    c5state.getSectionForPage 75 = 2 ∧
    c5state.getSectionForPage 30 = c5state.defaultSectionId ∧
    c5state.getSectionForPage 200 = c5state.defaultSectionId := by
  decide

/-- Claim C6, confirmed.  On a three-line fully associative section,
fetching 1, 2, 3, 4 then 2 leaves the most-recently-used-first order
`[2, 4, 3]`, and identifier 1 has been evicted. -/
theorem c6_lru_order :
    (c6state.lookupSection c6state.defaultSectionId).map
        (fun s => s.pages.map (fun e => e.id)) = some [2, 4, 3] ∧
    c6state.residentPage 1 = none := by
  decide

/-- Claim C7, counterexample.  A two-line fully associative section holds
unpinned pages 1 and 2 (LRU order [2, 1]).  The claim states a resize to
one line discards only enough pages to fit, so page 2 (most recently used)
remains resident; the code discards everything: the resident count drops
to 0 and page 2 is gone. -/
theorem c7_counterexample :
    c7sec.pages.map (fun e => e.id) = [2, 1] ∧
    (c7sec.resize 64).pagesCapacity = 1 ∧
    (c7sec.resize 64).pageCount = 0 ∧
    (c7sec.resize 64).lookupResident 2 = none := by
  decide

/-- A fresh cache, the initial state for the identifier-sequence claim. -/
def c9cache : ConfigurableCache := ConfigurableCache.mkCache 64 64 64

/-- The state keeps a live default section (true of every reachable
router state: the constructor creates it and `remove_section` refuses to
drop it). -/
def hasDefault (c : ConfigurableCache) : Prop :=
  (c.lookupSection c.defaultSectionId).isSome = true

/-- Rewriting one value of an association list leaves every key lookup
defined or undefined exactly as before. -/
theorem find?_map_keyKept (l : List (Nat × CacheSection)) (sid : Nat) (sec : CacheSection)
    (k : Nat) :
    ((l.map (fun p => if p.1 == sid then (p.1, sec) else p)).find? (fun p => p.1 == k)).isSome
      = (l.find? (fun p => p.1 == k)).isSome := by
  induction l with
  | nil => simp
  | cons a t ih =>
    have h1 : ((if (a.1 == sid) = true then (a.1, sec) else a).1 == k) = (a.1 == k) := by
      split <;> rfl
    rw [List.map_cons, List.find?_cons, List.find?_cons]
    simp only [h1]
    cases hk : (a.1 == k) with
    | true => simp
    | false => simpa using ih

/-- `writeSection` preserves which section ids are present. -/
theorem writeSection_lookup_isSome (c : ConfigurableCache) (sid : Nat) (sec : CacheSection)
    (k : Nat) :
    ((c.writeSection sid sec).lookupSection k).isSome = (c.lookupSection k).isSome := by
  unfold ConfigurableCache.writeSection ConfigurableCache.lookupSection
  simp only [Option.isSome_map']
  exact find?_map_keyKept c.sections sid sec k

/-- With a live default section, page-to-section resolution always finds a
section. -/
theorem findSectionForPage_isSome (c : ConfigurableCache) (i : Nat) (h : hasDefault c) :
    (c.findSectionForPage i).isSome = true := by
  unfold hasDefault at h
  unfold ConfigurableCache.findSectionForPage
  cases hl : c.lookupSection c.defaultSectionId with
  | none => rw [hl] at h; simp at h
  | some s => repeat' split <;> simp_all

/-- `new_page` keeps the default section alive. -/
theorem newPage_hasDefault (c : ConfigurableCache) (h : hasDefault c) :
    hasDefault ((c.newPage).2) := by
  have key : ∀ (c' : ConfigurableCache) (sid : Nat) (sec : CacheSection),
      hasDefault c' → hasDefault (c'.writeSection sid sec) := by
    intro c' sid sec hc
    unfold hasDefault at hc ⊢
    rw [show (c'.writeSection sid sec).defaultSectionId = c'.defaultSectionId from rfl,
      writeSection_lookup_isSome]
    exact hc
  unfold ConfigurableCache.newPage
  by_cases h0 : c.nextPageId = 0 <;>
    simp only [h0, if_true, if_false, ite_true, ite_false] <;>
    split
  all_goals first
    | exact h
    | (split
       · exact key _ _ _ h
       · exact key _ _ _ (key _ _ _ h))
/-- One `new_page` call advances the 64-bit counter by one (after the
initial bump from 0 to 1). -/
theorem newPage_nextPageId (c : ConfigurableCache) :
    ((c.newPage).2).nextPageId = (if c.nextPageId = 0 then 1 else c.nextPageId) + 1 := by
  unfold ConfigurableCache.newPage
  by_cases h0 : c.nextPageId = 0 <;>
    simp only [h0, if_true, if_false, ite_true, ite_false] <;>
    split
  all_goals first
    | rfl
    | (split <;> rfl)

/-- `allocate_page` always returns the freshly created zero-filled page
`Page(id, line_size)` — there is no failure path (and no backing store). -/
theorem allocatePage_fst (s : CacheSection) (i ck : Nat) :
    (s.allocatePage i ck).1 = some (Page.create i s.lineSize) := by
  unfold CacheSection.allocatePage
  cases hstruct : s.struct <;> simp only
  case FullyAssociative =>
    split
    · rfl
    · split <;> rfl
  all_goals
    by_cases hA : s.sets = [] <;>
      simp only [hA, if_true, if_false, ite_true, ite_false] <;>
      split <;> rfl

/-- Resolution never yields nothing while the default section lives. -/
theorem findSectionForPage_ne_none (c : ConfigurableCache) (i : Nat) (h : hasDefault c) :
    c.findSectionForPage i ≠ none := by
  intro hn
  have hs := findSectionForPage_isSome c i h
  rw [hn] at hs
  simp at hs

/-- `CacheSection::new_page` always returns the freshly created page. -/
theorem newPage_fst (s : CacheSection) (i ck : Nat) :
    (s.newPage i ck).1 = some (Page.create i s.lineSize) := by
  unfold CacheSection.newPage
  exact allocatePage_fst _ _ _

/-- The id handed out by a router `new_page` call is the 64-bit counter
value truncated to 32 bits. -/
theorem newPage_fst_id (c : ConfigurableCache) (h : hasDefault c) :
    ((c.newPage).1).map Page.id
      = some ((if c.nextPageId = 0 then 1 else c.nextPageId) % 2 ^ 32) := by
  unfold ConfigurableCache.newPage
  by_cases h0 : c.nextPageId = 0 <;>
    simp only [h0, if_true, if_false, ite_true, ite_false] <;>
    split
  all_goals first
    | (rename_i heq
       exact absurd heq (findSectionForPage_ne_none _ _ h))
    | (rename_i r heq
       rw [newPage_fst]
       rfl)

/-- The default section survives any number of `new_page` calls. -/
theorem iter_hasDefault (n : Nat) : hasDefault (c9cache.iterNewPage n) := by
  induction n with
  | zero =>
    show (c9cache.lookupSection c9cache.defaultSectionId).isSome = true
    decide
  | succ n ih => exact newPage_hasDefault _ ih

/-- Closed form of the 64-bit counter after `n` calls. -/
theorem iter_nextPageId (n : Nat) :
    (c9cache.iterNewPage n).nextPageId = if n = 0 then 0 else n + 1 := by
  induction n with
  | zero => rfl
  | succ n ih =>
    show ((c9cache.iterNewPage n).newPage).2.nextPageId = _
    rw [newPage_nextPageId, ih]
    by_cases hn : n = 0 <;> simp [hn]

/-- Closed form of the identifier returned by the `n`-th `new_page` call:
`n mod 2 ^ 32`. -/
theorem idOfCall_formula (n : Nat) (hn : 1 ≤ n) :
    c9cache.idOfCall n = some (n % 2 ^ 32) := by
  unfold ConfigurableCache.idOfCall
  rw [newPage_fst_id _ (iter_hasDefault (n - 1)), iter_nextPageId]
  by_cases h1 : n - 1 = 0
  · have hn1 : n = 1 := by omega
    subst hn1
    norm_num
  · have hsucc : n - 1 + 1 = n := by omega
    simp only [h1, if_false, ite_false, hsucc]
    have hnz : ¬ (n = 0) := by omega
    simp [hnz]

/-- Claim C9, code bug.  The first calls return 1, 2, 3, … and never 0,
as claimed — but `next_page_id` is a 64-bit `size_t` truncated into the
32-bit `PageID`, so the `2 ^ 32`-th call returns identifier 0 (the counter
reads `2 ^ 32`, its low 32 bits are 0, and the `next_page_id == 0` reset
only inspects the full 64-bit value).  This contradicts the reserved-zero
convention the code itself documents. -/
theorem c9_wrap_bug :
    c9cache.idOfCall 1 = some 1 ∧
    c9cache.idOfCall (2 ^ 32 - 1) = some (2 ^ 32 - 1) ∧
    c9cache.idOfCall (2 ^ 32) = some 0 := by
  refine ⟨?_, ?_, ?_⟩ <;> rw [idOfCall_formula _ (by norm_num)] <;> norm_num

/-- A section fetch leaves the line size unchanged. -/
theorem fetchPage_lineSize (s : CacheSection) (i : Nat) :
    ((s.fetchPage i).2).lineSize = s.lineSize := by
  unfold CacheSection.fetchPage
  cases hstruct : s.struct <;> simp only
  case FullyAssociative =>
    split
    · split <;> rfl
    · rfl
  all_goals
    by_cases hA : s.sets = [] <;>
      simp only [hA, if_true, if_false, ite_true, ite_false] <;>
      first
        | rfl
        | (split <;> rfl)

/-- Claim C10, confirmed.  For every identifier (0 and never-allocated ids
included), once the router resolves a section — which it always does while
the default section lives — `fetch_page` returns a page: a hit returns the
stored page, and a miss fabricates `Page(id, line_size)`, zero-filled,
with no backing store consulted and no not-found or I/O error path. -/
theorem c10_fetch_total (c : ConfigurableCache) (id sid : Nat) (sec : CacheSection)
    (hs : c.findSectionForPage id = some (sid, sec)) :
    ∃ p, (c.fetchPage id).1 = some p ∧
      (sec.lookupResident id = none → p = Page.create id sec.lineSize) := by
  cases hres : sec.lookupResident id with
  | some pg =>
    refine ⟨pg, ?_, by intro hcon; exact absurd hcon (by simp)⟩
    have h1 : (sec.fetchPage id).1 = some pg := (fetchPage_fst sec id).trans hres
    unfold ConfigurableCache.fetchPage
    rw [hs]
    rcases hf : sec.fetchPage id with ⟨fst, s2⟩
    rw [hf] at h1
    simp only at h1
    simp [hf, h1]
  | none =>
    have h1 : (sec.fetchPage id).1 = none := (fetchPage_fst sec id).trans hres
    refine ⟨Page.create id sec.lineSize, ?_, fun _ => rfl⟩
    unfold ConfigurableCache.fetchPage
    rw [hs]
    rcases hf : sec.fetchPage id with ⟨fst, s2⟩
    rw [hf] at h1
    simp only at h1
    have h3 : s2.lineSize = sec.lineSize := by
      have h4 := fetchPage_lineSize sec id
      rw [hf] at h4
      exact h4
    have h2 : (s2.newPage id c.clockHand).1 = some (Page.create id s2.lineSize) :=
      newPage_fst _ _ _
    simp [hf, h1, h2, h3]

/-- Witness for `c10_fetch_total`: fetching the reserved identifier 0 on a
fresh cache returns the fabricated zero-filled page. -/
theorem c10_fetch_total_witness :
    ∃ p, (c10cache.fetchPage 0).1 = some p ∧
      (c10sec.lookupResident 0 = none → p = Page.create 0 c10sec.lineSize) :=
  c10_fetch_total c10cache 0 0 c10sec (by decide)

/-- The exact state of section 0 (the default section) when the claim C8
optimizer runs: one 64-byte line, page 12 resident, 8 accesses of which 6
missed (miss rate 3/4, exactly representable in `double`). -/
def c8secA : CacheSection :=
  { sectionId := 0, size := 64, lineSize := 64, struct := Structure.FullyAssociative,
    associativity := 8, numSets := 1, pagesCapacity := 1, sets := [],
    pages := [{ page := some (Page.create 12 64), id := 12, valid := true, referenced := false }],
    stats := { accesses := 8, hits := 2, misses := 6 } }

/-- The exact state of section 1 when the claim C8 optimizer runs: ten
64-byte lines, page 100 resident, 8 accesses of which 2 missed (miss rate
1/4, exactly representable in `double`). -/
def c8secB : CacheSection :=
  { sectionId := 1, size := 640, lineSize := 64, struct := Structure.FullyAssociative,
    associativity := 8, numSets := 1, pagesCapacity := 10, sets := [],
    pages := [{ page := some (Page.create 100 64), id := 100, valid := true, referenced := false }],
    stats := { accesses := 8, hits := 6, misses := 2 } }

/-- The claim C8 scenario reaches exactly the two sections above. -/
theorem c8_sections : c8state.sections = [(0, c8secA), (1, c8secB)] := by decide

theorem c8_avail : c8state.availableSize = 0 := by decide

/-- The optimizer targets for the claim C8 state: section 0 (miss rate
3/4) should grow to 528 bytes, section 1 (miss rate 1/4) shrink to 176;
the targets sum to the pool 704 and respect the `2 × 64` floor. -/
theorem c8_targets : c8state.optimizeTargets = [(0, 528), (1, 176)] := by
  unfold ConfigurableCache.optimizeTargets
  rw [c8_sections, c8_avail]
  norm_num [sortByRate, insertByRate, Stats.missRate, c8secA, c8secB, initialTarget,
    ConfigurableCache.sectionLineSize, ConfigurableCache.lookupSection, c8_sections]
  decide

/-- Applying the optimizer is the two `resize_section` calls in descending
miss-rate order. -/
theorem c8_opt :
    c8state.simpleSizeOptimization = (c8state.resizeSection 0 528).resizeSection 1 176 := by
  have hlen : ¬ ((c8state.sections.map (fun p => (p.1, p.2.stats))).length ≤ 1) := by
    decide
  have hrate :
      ¬ ((((c8state.sections.map (fun p => (p.1, p.2.stats))).map
          (fun p => p.2.missRate)).sum : ℚ) ≤ 0) := by
    rw [c8_sections]
    norm_num [Stats.missRate, c8secA, c8secB]
  unfold ConfigurableCache.simpleSizeOptimization
  dsimp only
  rw [if_neg hlen, if_neg hrate, c8_targets]
  simp only [List.foldl_cons, List.foldl_nil]

/-- Claim C8, counterexample.  The state has two sections and a positive
total miss rate, yet after `optimize()` section 0 holds 64 bytes, below
its floor `2 × line_size = 128`, and the capacities sum to 240, far from
the pool 704: `resize_section` is applied to the growing section 0 first,
while the pool is still empty, so its growth is clamped to nothing; the
space freed by shrinking section 1 afterwards is never handed out. -/
theorem c8_counterexample :
    c8state.sections.length = 2 ∧
    (c8state.lookupSection 0).map CacheSection.stats
      = some { accesses := 8, hits := 2, misses := 6 } ∧
    (c8state.lookupSection 1).map CacheSection.stats
      = some { accesses := 8, hits := 6, misses := 2 } ∧
    c8state.sectionSize 0 + c8state.sectionSize 1 + c8state.availableSize = 704 ∧
    (c8state.simpleSizeOptimization).sectionSize 0 = 64 ∧
    (c8state.simpleSizeOptimization).sectionSize 0 < 2 * c8state.sectionLineSize 0 ∧
    (c8state.simpleSizeOptimization).sectionSize 0
      + (c8state.simpleSizeOptimization).sectionSize 1 = 240 := by
  rw [c8_opt]
  decide

/-- Every target produced by the first sizing loop respects the
`2 × line_size` floor. -/
theorem initialTarget_floor (c : ConfigurableCache) (pool : Nat) (tot : ℚ)
    (a : Nat × Stats) :
    2 * c.sectionLineSize (initialTarget c pool tot a).1 ≤ (initialTarget c pool tot a).2 := by
  unfold initialTarget
  dsimp only
  split <;> omega

/-- The excess-trimming loop never cuts an entry below its floor. -/
theorem reduceLoop_floor (c : ConfigurableCache) (L : List Nat) :
    ∀ (acc : List (Nat × Nat) × Nat),
      (∀ p ∈ acc.1, 2 * c.sectionLineSize p.1 ≤ p.2) →
      ∀ p ∈ (L.foldl (reduceStep c) acc).1, 2 * c.sectionLineSize p.1 ≤ p.2 := by
  induction L with
  | nil => intro acc h; exact h
  | cons i t ih =>
    intro acc h
    apply ih
    intro p hp
    unfold reduceStep at hp
    cases hget : acc.1.get? i with
    | none => rw [hget] at hp; exact h p hp
    | some e =>
      rw [hget] at hp
      simp only at hp
      rcases List.mem_or_eq_of_mem_set hp with hmem | heq
      · exact h p hmem
      · subst heq
        have he := h e (List.get?_mem hget)
        have hmin : min acc.2 (e.2 - 2 * c.sectionLineSize e.1)
            ≤ e.2 - 2 * c.sectionLineSize e.1 := Nat.min_le_right _ _
        simp only
        omega

/-- The surplus-distribution loop only grows entries. -/
theorem extraLoop_floor (c : ConfigurableCache) (n : Nat) (L : List Nat) :
    ∀ (acc : List (Nat × Nat) × Nat),
      (∀ p ∈ acc.1, 2 * c.sectionLineSize p.1 ≤ p.2) →
      ∀ p ∈ (L.foldl (extraStep n) acc).1, 2 * c.sectionLineSize p.1 ≤ p.2 := by
  induction L with
  | nil => intro acc h; exact h
  | cons i t ih =>
    intro acc h
    apply ih
    intro p hp
    unfold extraStep at hp
    cases hget : acc.1.get? i with
    | none => rw [hget] at hp; exact h p hp
    | some e =>
      rw [hget] at hp
      simp only at hp
      rcases List.mem_or_eq_of_mem_set hp with hmem | heq
      · exact h p hmem
      · subst heq
        have he := h e (List.get?_mem hget)
        simp only
        exact le_trans he (Nat.le_add_right _ _)

/-- Claim C8, amended.  The optimizer *computes* target sizes that all
respect the `2 × line_size` floor (initial proportional shares are raised
to the floor and the adjustment loops never cross it); but the *applied*
capacities go through `resize_section`, which clamps growth to the space
available at that moment — applied in descending miss-rate order, a
growing section is resized before the shrinking ones free their space, so
the resulting capacities can fall below the floor and sum to less than
the pool (see `c8_counterexample`). -/
theorem c8_amended (c : ConfigurableCache) (p : Nat × Nat)
    (hp : p ∈ c.optimizeTargets) : 2 * c.sectionLineSize p.1 ≤ p.2 := by
  unfold ConfigurableCache.optimizeTargets at hp
  have hinit : ∀ q ∈ (sortByRate (c.sections.map (fun r => (r.1, r.2.stats)))).map
      (initialTarget c ((c.sections.map (fun r => r.2.size)).sum + c.availableSize)
        ((sortByRate (c.sections.map (fun r => (r.1, r.2.stats)))).map
          (fun r => r.2.missRate)).sum),
      2 * c.sectionLineSize q.1 ≤ q.2 := by
    intro q hq
    rcases List.mem_map.mp hq with ⟨a, _, rfl⟩
    exact initialTarget_floor c _ _ a
  dsimp only at hp
  split at hp
  · exact reduceLoop_floor c _ _ hinit p hp
  · split at hp
    · exact extraLoop_floor c _ _ _ hinit p hp
    · exact hinit p hp

/-- Witness for `c8_amended`: the computed target for section 0 in the
claim C8 state is 528 ≥ 2 × 64. -/
theorem c8_amended_witness : 2 * c8state.sectionLineSize 0 ≤ 528 :=
  c8_amended c8state (0, 528) (by rw [c8_targets]; simp)

end BPTree
